import Mathlib

/-!
Verification development for the SecureFileVault repository.

The repository bundles two server variants:
  variant A: the first half of src/server/routes.ts together with the
    in-memory storage of src/unnamed/part_011 and src/shared/schema.ts
    (files carry a SHA-256 hash, an IV, a shared-file ledger and a
    WebSocket client registry);
  variant B: the second half of src/server/routes.ts together with
    src/server/storage.ts and the second definition set of
    src/server/utils/encryption.js (files carry fileKey/fileIV, access
    logs, AES-256-CBC encryption of the stored blob).

Bytes are modelled as `List Nat`.  External collaborators (node crypto
randomness, the AES block primitive, path/extname, SHA-256) are passed in
as parameters: the repository only consumes their results.  The cipher
mode (CBC chaining with PKCS#7 padding, as performed by
crypto.createCipheriv with algorithm aes-256-cbc) is modelled concretely,
parameterized by the 16-byte block primitive.
-/

namespace SecureFileVault

/-! ### Filesystem model: blobs addressed by path -/

structure FS where
  blobs : List (String × List Nat)
deriving DecidableEq

def fsRead (fs : FS) (p : String) : Option (List Nat) :=
  (fs.blobs.find? (fun e => e.1 == p)).map (fun e => e.2)

def fsWrite (fs : FS) (p : String) (d : List Nat) : FS :=
  ⟨(p, d) :: fs.blobs.filter (fun e => e.1 != p)⟩

/-- fs.unlink with the rejection swallowed (the call sites catch and ignore
errors, as in deleteEncryptedFile and the upload error handler). -/
def fsUnlinkSilent (fs : FS) (p : String) : FS :=
  ⟨fs.blobs.filter (fun e => e.1 != p)⟩

/-- fs.unlinkSync, which throws when the path is absent (used by the
variant A delete route, where the throw is caught as a 500). -/
def fsUnlinkStrict (fs : FS) (p : String) : Option FS :=
  match fsRead fs p with
  | none => none
  | some _ => some (fsUnlinkSilent fs p)

/-! ### Cipher engine
src/server/utils/encryption.js, second definition set (lines 149-296).
crypto.createCipheriv("aes-256-cbc", key, iv) followed by update/final is
CBC chaining over 16-byte blocks with PKCS#7 padding; the AES block
primitive itself is external and is passed in as `E` (and its inverse `D`
on the decrypt side). -/

def pkcs7Pad (data : List Nat) : List Nat :=
  let p := 16 - data.length % 16
  data ++ List.replicate p p

def pkcs7Unpad (data : List Nat) : Option (List Nat) :=
  data.getLast?.bind (fun p =>
    if p = 0 ∨ 16 < p ∨ data.length < p then none
    else if (data.drop (data.length - p)).all (fun x => x == p) then
      some (data.take (data.length - p))
    else none)

def chunk16Aux : Nat → List Nat → List (List Nat)
  | _, [] => []
  | 0, _ :: _ => []
  | fuel + 1, a :: rest => ((a :: rest).take 16) :: chunk16Aux fuel ((a :: rest).drop 16)

def chunk16 (l : List Nat) : List (List Nat) := chunk16Aux l.length l

def cbcEncBlocks (E : List Nat → List Nat) : List Nat → List (List Nat) → List (List Nat)
  | _, [] => []
  | prev, b :: bs =>
    let c := E (List.zipWith Nat.xor b prev)
    c :: cbcEncBlocks E c bs

def cbcDecBlocks (D : List Nat → List Nat) : List Nat → List (List Nat) → List (List Nat)
  | _, [] => []
  | prev, c :: cs =>
    List.zipWith Nat.xor (D c) prev :: cbcDecBlocks D c cs

def cbcEncrypt (E : List Nat → List Nat) (iv : List Nat) (data : List Nat) : List Nat :=
  (cbcEncBlocks E iv (chunk16 (pkcs7Pad data))).flatten

def cbcDecrypt (D : List Nat → List Nat) (iv : List Nat) (c : List Nat) : Option (List Nat) :=
  if c.length % 16 = 0 then
    pkcs7Unpad ((cbcDecBlocks D iv (chunk16 c)).flatten)
  else none

def ENCRYPTED_DIR : String := "uploads/encrypted"

/-- Result record of encryptFile (its exact source fields; key and iv are
kept as the generated bytes, the hex transcription being a bijective
external encoding that decryptFile undoes with Buffer.from(key, hex)). -/
structure EncryptResult where
  filePath : String
  encryptedName : String
  key : List Nat
  iv : List Nat
deriving DecidableEq

/-- encryptFile: the generated key and iv (crypto.randomBytes outcomes) and
the random encrypted file name are inputs; reads sourcePath, writes the
CBC ciphertext under uploads/encrypted, returns the metadata.  `none`
models the promise rejecting (readFile failure). -/
def encryptFile (E : List Nat → List Nat → List Nat) (key iv : List Nat)
    (encryptedName : String) (sourcePath : String) (fs : FS) :
    Option (FS × EncryptResult) :=
  match fsRead fs sourcePath with
  | none => none
  | some data =>
    let destinationPath := ENCRYPTED_DIR ++ "/" ++ encryptedName
    let encryptedData := cbcEncrypt (E key) iv data
    some (fsWrite fs destinationPath encryptedData,
          ⟨destinationPath, encryptedName, key, iv⟩)

/-- decryptFile: reads the blob at filePath and undoes the CBC transform.
`none` models the promise rejecting (missing blob, wrong final block
length, or bad padding).  Note that no digest is recomputed or compared
anywhere in this function. -/
def decryptFile (D : List Nat → List Nat → List Nat) (key iv : List Nat)
    (filePath : String) (fs : FS) : Option (List Nat) :=
  match fsRead fs filePath with
  | none => none
  | some encryptedData => cbcDecrypt (D key) iv encryptedData

/-! ### Variant A data model
src/shared/schema.ts and the MemStorage of src/unnamed/part_011.
JS Map iteration follows insertion order, so each Map is modelled as a
list in insertion order with ids issued by the counters. -/

structure UserA where
  id : Nat
  username : String
  email : String
deriving DecidableEq

structure FileA where
  id : Nat
  userId : Nat
  name : String
  originalName : String
  type : String
  size : Nat
  hash : List Nat
  encrypted : Bool
  encryptionType : Option String
  iv : Option (List Nat)
  uploadedAt : Nat
deriving DecidableEq

structure SharedFileA where
  id : Nat
  fileId : Nat
  sharedByUserId : Nat
  sharedWithUserId : Nat
  permissionLevel : String
  note : Option String
  sharedAt : Nat
  viewed : Bool
deriving DecidableEq

structure InsertFileA where
  userId : Nat
  name : String
  originalName : String
  type : String
  size : Nat
  hash : List Nat
  encrypted : Bool
  encryptionType : Option String
  iv : Option (List Nat)
deriving DecidableEq

structure StorageA where
  users : List UserA
  files : List FileA
  sharedFiles : List SharedFileA
  userIdCounter : Nat
  fileIdCounter : Nat
  sharedFileIdCounter : Nat
deriving DecidableEq

def StorageA.getUser (s : StorageA) (id : Nat) : Option UserA :=
  s.users.find? (fun u => u.id == id)

def StorageA.getFile (s : StorageA) (id : Nat) : Option FileA :=
  s.files.find? (fun f => f.id == id)

def StorageA.getFilesByUser (s : StorageA) (userId : Nat) : List FileA :=
  s.files.filter (fun f => f.userId == userId)

def StorageA.createFile (s : StorageA) (f : InsertFileA) (now : Nat) :
    StorageA × FileA :=
  let id := s.fileIdCounter
  let file : FileA :=
    ⟨id, f.userId, f.name, f.originalName, f.type, f.size, f.hash,
     f.encrypted, f.encryptionType, f.iv, now⟩
  ({ s with files := s.files ++ [file], fileIdCounter := id + 1 }, file)

/-- MemStorage.deleteFile: first removes every shared-file row whose fileId
matches, then deletes the file itself, returning whether it was present. -/
def StorageA.deleteFile (s : StorageA) (id : Nat) : StorageA × Bool :=
  let s1 := { s with sharedFiles := s.sharedFiles.filter (fun sf => sf.fileId != id) }
  ({ s1 with files := s1.files.filter (fun f => f.id != id) },
   s.files.any (fun f => f.id == id))

def StorageA.shareFile (s : StorageA) (fileId sharedByUserId sharedWithUserId : Nat)
    (permissionLevel : String) (note : Option String) (now : Nat) :
    StorageA × SharedFileA :=
  let id := s.sharedFileIdCounter
  let sf : SharedFileA :=
    ⟨id, fileId, sharedByUserId, sharedWithUserId, permissionLevel, note, now, false⟩
  ({ s with sharedFiles := s.sharedFiles ++ [sf], sharedFileIdCounter := id + 1 }, sf)

structure SharedWithEntry where
  sharedFile : SharedFileA
  file : FileA
  sharedByUser : UserA
deriving DecidableEq

structure SharedByEntry where
  sharedFile : SharedFileA
  file : FileA
  sharedWithUser : UserA
deriving DecidableEq

/-- getFilesSharedWithUser: grants to this user joined with their file and
the sharing user; a grant whose file or sharing user is not found is
skipped. -/
def StorageA.getFilesSharedWithUser (s : StorageA) (userId : Nat) :
    List SharedWithEntry :=
  (s.sharedFiles.filter (fun sf => sf.sharedWithUserId == userId)).filterMap
    (fun sf =>
      match s.getFile sf.fileId, s.getUser sf.sharedByUserId with
      | some file, some sharedByUser => some ⟨sf, file, sharedByUser⟩
      | _, _ => none)

/-- getFilesSharedByUser: grants by this user joined with their file and
the receiving user; a grant whose file or receiving user is not found is
skipped. -/
def StorageA.getFilesSharedByUser (s : StorageA) (userId : Nat) :
    List SharedByEntry :=
  (s.sharedFiles.filter (fun sf => sf.sharedByUserId == userId)).filterMap
    (fun sf =>
      match s.getFile sf.fileId, s.getUser sf.sharedWithUserId with
      | some file, some sharedWithUser => some ⟨sf, file, sharedWithUser⟩
      | _, _ => none)

def StorageA.updateSharedFileViewed (s : StorageA) (id : Nat) (viewed : Bool) :
    StorageA × Bool :=
  match s.sharedFiles.find? (fun sf => sf.id == id) with
  | none => (s, false)
  | some _ =>
    ({ s with sharedFiles := s.sharedFiles.map (fun sf =>
        if sf.id == id then { sf with viewed := viewed } else sf) },
     true)

/-! ### Variant A routes
First half of src/server/routes.ts (registerRoutes, lines 16-533).
Authentication is external: each handler receives the session user (id).
Multer has already written the uploaded bytes under uploadDir before the
upload handler runs, which is modelled by reading them from the disk
component of the server state.  The WebSocket client registry is the
`clients` array; fan-out is the clients.forEach loop of the handlers. -/

structure ClientConn where
  connId : Nat
  userId : String
  isOpen : Bool
deriving DecidableEq

structure ServerA where
  store : StorageA
  uploadDisk : List (String × List Nat)
  clients : List ClientConn
deriving DecidableEq

def diskRead (disk : List (String × List Nat)) (p : String) : Option (List Nat) :=
  (disk.find? (fun e => e.1 == p)).map (fun e => e.2)

def diskUnlinkStrict (disk : List (String × List Nat)) (p : String) :
    Option (List (String × List Nat)) :=
  match diskRead disk p with
  | none => none
  | some _ => some (disk.filter (fun e => e.1 != p))

inductive RouteResult (α : Type) where
  | ok : α → RouteResult α
  | notFound : RouteResult α
  | forbidden : RouteResult α
  | serverError : RouteResult α
deriving DecidableEq

inductive WsMessage where
  | fileUploaded (file : FileA)
  | fileDeleted (fileId : Nat)
  | fileSharedWithYou (sharedFile : SharedFileA) (file : FileA) (sharedByUser : UserA)
deriving DecidableEq

/-- The clients.forEach loop: send msg on every registered connection whose
userId matches the target and whose socket readyState is OPEN.  Returns
the deliveries as (connId, message) pairs. -/
def fanout (clients : List ClientConn) (targetUserId : String) (msg : WsMessage) :
    List (Nat × WsMessage) :=
  clients.filterMap (fun c =>
    if c.userId == targetUserId && c.isOpen then some (c.connId, msg) else none)

structure UploadResponseA where
  message : String
  file : FileA
deriving DecidableEq

/-- POST /api/files/upload (routes.ts lines 178-226): reads the bytes multer
stored under uploadDir/filename, computes the SHA-256 hash of those bytes
(the hash function is the external collaborator `sha256`), generates an
IV (parameter ivBytes, the crypto.randomBytes outcome), creates the file
record, responds with it, and fans FILE_UPLOADED out to the uploader.
No encryption is performed and no key is generated. -/
def upload1 (sha256 : List Nat → List Nat) (s : ServerA) (sessionUserId : Nat)
    (filename originalname mimetype : String) (ivBytes : List Nat) (now : Nat) :
    ServerA × RouteResult UploadResponseA × List (Nat × WsMessage) :=
  match diskRead s.uploadDisk filename with
  | none => (s, .serverError, [])
  | some fileBuffer =>
    let hash := sha256 fileBuffer
    let ins : InsertFileA :=
      ⟨sessionUserId, filename, originalname, mimetype, fileBuffer.length,
       hash, true, some "AES-256", some ivBytes⟩
    let (store1, file) := s.store.createFile ins now
    ({ s with store := store1 },
     .ok ⟨"File uploaded successfully", file⟩,
     fanout s.clients (toString sessionUserId) (.fileUploaded file))

/-- GET /api/files/:id (routes.ts lines 228-253): owners and users the file
is shared with (any permission level) get the full record back. -/
def getFileRoute1 (s : ServerA) (sessionUserId fileId : Nat) : RouteResult FileA :=
  match s.store.getFile fileId with
  | none => .notFound
  | some file =>
    if file.userId != sessionUserId then
      if (s.store.getFilesSharedWithUser sessionUserId).any
          (fun sf => sf.file.id == fileId) then .ok file
      else .forbidden
    else .ok file

/-- GET /api/files/:id/download (routes.ts lines 255-286): non-owners need a
shared-file entry; the first join entry for the file decides, and a
permissionLevel of view is rejected; then the stored bytes under
uploadDir/file.name are served as-is (no decryption, no hash check). -/
def download1 (s : ServerA) (sessionUserId fileId : Nat) : RouteResult (List Nat) :=
  match s.store.getFile fileId with
  | none => .notFound
  | some file =>
    if file.userId != sessionUserId then
      match (s.store.getFilesSharedWithUser sessionUserId).find?
          (fun sf => sf.file.id == fileId) with
      | none => .forbidden
      | some sharedFile =>
        if sharedFile.sharedFile.permissionLevel = "view" then .forbidden
        else
          match diskRead s.uploadDisk file.name with
          | none => .serverError
          | some bytes => .ok bytes
    else
      match diskRead s.uploadDisk file.name with
      | none => .serverError
      | some bytes => .ok bytes

/-- DELETE /api/files/:id (routes.ts lines 288-325): only the owner may
delete; fs.unlinkSync throws (caught as a 500) when the blob is absent;
then MemStorage.deleteFile cascades the shared-file rows and removes the
record; FILE_DELETED is fanned out to the owner. -/
def delete1 (s : ServerA) (sessionUserId fileId : Nat) :
    ServerA × RouteResult String × List (Nat × WsMessage) :=
  match s.store.getFile fileId with
  | none => (s, .notFound, [])
  | some file =>
    if file.userId != sessionUserId then (s, .forbidden, [])
    else
      match diskUnlinkStrict s.uploadDisk file.name with
      | none => (s, .serverError, [])
      | some disk1 =>
        let (store1, _) := s.store.deleteFile fileId
        ({ s with store := store1, uploadDisk := disk1 },
         .ok "File deleted successfully",
         fanout s.clients (toString sessionUserId) (.fileDeleted fileId))

structure ShareResponseA where
  message : String
  sharedFiles : List SharedFileA
deriving DecidableEq

/-- One iteration of the share loop of POST /api/files/:id/share: skip a
missing target user, otherwise create the grant, push it onto the
response list and fan FILE_SHARED_WITH_YOU out to that target, carrying
the grant, the full file record and the session user. -/
def share1Step (clients : List ClientConn) (sessionUser : UserA) (fileId : Nat)
    (file : FileA) (permissionLevel : String) (note : Option String) (now : Nat)
    (acc : StorageA × List SharedFileA × List (Nat × WsMessage)) (uid : Nat) :
    StorageA × List SharedFileA × List (Nat × WsMessage) :=
  match acc.1.getUser uid with
  | none => acc
  | some _ =>
    let (st1, sf) := acc.1.shareFile fileId sessionUser.id uid permissionLevel note now
    (st1, acc.2.1 ++ [sf],
     acc.2.2 ++ fanout clients (toString uid) (.fileSharedWithYou sf file sessionUser))

/-- POST /api/files/:id/share (routes.ts lines 363-422): only the owner may
share; the loop body over sharedWithUserIds is share1Step. -/
def share1 (s : ServerA) (sessionUser : UserA) (fileId : Nat)
    (sharedWithUserIds : List Nat) (permissionLevel : String) (note : Option String)
    (now : Nat) :
    ServerA × RouteResult ShareResponseA × List (Nat × WsMessage) :=
  match s.store.getFile fileId with
  | none => (s, .notFound, [])
  | some file =>
    if file.userId != sessionUser.id then (s, .forbidden, [])
    else
      let res := sharedWithUserIds.foldl
        (share1Step s.clients sessionUser fileId file permissionLevel note now)
        (s.store, [], [])
      ({ s with store := res.1 },
       .ok ⟨"File shared successfully", res.2.1⟩,
       res.2.2)

/-- Modelled from the spec: the ordering view < download < full of
section 3 (ShareGrant.permissionLevel). -/
def levelRank : String → Nat
  | "full" => 3
  | "download" => 2
  | "view" => 1
  | _ => 0

/-- Modelled from the spec: the permission check primitive of section 4.3,
effectiveLevel(fileId, userId): the owner always has full; otherwise the
highest-level active grant to that user for that file, or none.  The
routes implement no such primitive; this definition is the yardstick the
spec claims they refine. -/
def specEffectiveLevel (s : StorageA) (fileId userId : Nat) : Option String :=
  match s.getFile fileId with
  | none => none
  | some file =>
    if file.userId == userId then some "full"
    else
      (s.sharedFiles.filter (fun sf =>
          sf.fileId == fileId && sf.sharedWithUserId == userId)).foldl
        (fun best sf =>
          match best with
          | none => some sf.permissionLevel
          | some b =>
            if levelRank b < levelRank sf.permissionLevel
            then some sf.permissionLevel else some b)
        none

/-! ### Variant B data model
src/server/storage.ts MemStorage, with the file shape used by the second
half of src/server/routes.ts (lines 535-935). -/

structure FileB where
  id : Nat
  userId : Nat
  originalName : String
  encryptedName : String
  fileType : String
  filePath : String
  fileSize : Nat
  encryptionAlgorithm : String
  isEncrypted : Bool
  fileKey : List Nat
  fileIV : List Nat
  createdAt : Nat
  lastAccessed : Nat
deriving DecidableEq

structure InsertFileB where
  userId : Nat
  originalName : String
  encryptedName : String
  fileType : String
  filePath : String
  fileSize : Nat
  encryptionAlgorithm : String
  isEncrypted : Bool
  fileKey : List Nat
  fileIV : List Nat
deriving DecidableEq

structure AccessLogB where
  id : Nat
  fileId : Nat
  userId : Nat
  action : String
  ipAddress : String
  timestamp : Nat
deriving DecidableEq

structure StorageB where
  files : List FileB
  accessLogs : List AccessLogB
  fileIdCounter : Nat
  accessLogIdCounter : Nat
deriving DecidableEq

def StorageB.getFile (st : StorageB) (id : Nat) : Option FileB :=
  st.files.find? (fun f => f.id == id)

def StorageB.getFiles (st : StorageB) (userId : Nat) : List FileB :=
  st.files.filter (fun f => f.userId == userId)

def StorageB.createFile (st : StorageB) (f : InsertFileB) (now : Nat) :
    StorageB × FileB :=
  let id := st.fileIdCounter
  let file : FileB :=
    ⟨id, f.userId, f.originalName, f.encryptedName, f.fileType, f.filePath,
     f.fileSize, f.encryptionAlgorithm, f.isEncrypted, f.fileKey, f.fileIV,
     now, now⟩
  ({ st with files := st.files ++ [file], fileIdCounter := id + 1 }, file)

/-- updateFile specialized to the only update the routes perform,
`updateFile(id, lastAccessed now)`. -/
def StorageB.updateLastAccessed (st : StorageB) (id : Nat) (now : Nat) : StorageB :=
  { st with files := st.files.map (fun f =>
      if f.id == id then { f with lastAccessed := now } else f) }

def StorageB.deleteFile (st : StorageB) (id : Nat) : StorageB × Bool :=
  ({ st with files := st.files.filter (fun f => f.id != id) },
   st.files.any (fun f => f.id == id))

def StorageB.createAccessLog (st : StorageB) (fileId userId : Nat)
    (action ipAddress : String) (now : Nat) : StorageB × AccessLogB :=
  let id := st.accessLogIdCounter
  let lg : AccessLogB := ⟨id, fileId, userId, action, ipAddress, now⟩
  ({ st with accessLogs := st.accessLogs ++ [lg], accessLogIdCounter := id + 1 }, lg)

def insertDescByTimestamp (x : AccessLogB) : List AccessLogB → List AccessLogB
  | [] => [x]
  | y :: ys =>
    if y.timestamp < x.timestamp then x :: y :: ys
    else y :: insertDescByTimestamp x ys

def sortDescByTimestamp : List AccessLogB → List AccessLogB
  | [] => []
  | x :: xs => insertDescByTimestamp x (sortDescByTimestamp xs)

def StorageB.getFileAccessLogs (st : StorageB) (fileId : Nat) (limit : Nat) :
    List AccessLogB :=
  (sortDescByTimestamp (st.accessLogs.filter (fun lg => lg.fileId == fileId))).take limit

/-! ### Variant B routes -/

structure UploadResponseB where
  id : Nat
  originalName : String
  fileType : String
  fileSize : Nat
  encryptionAlgorithm : String
  isEncrypted : Bool
  createdAt : Nat
deriving DecidableEq

structure FileListItemB where
  id : Nat
  originalName : String
  fileType : String
  fileSize : Nat
  encryptionAlgorithm : String
  isEncrypted : Bool
  createdAt : Nat
  lastAccessed : Nat
deriving DecidableEq

def FileB.toListItem (f : FileB) : FileListItemB :=
  ⟨f.id, f.originalName, f.fileType, f.fileSize, f.encryptionAlgorithm,
   f.isEncrypted, f.createdAt, f.lastAccessed⟩

def FileB.toUploadResponse (f : FileB) : UploadResponseB :=
  ⟨f.id, f.originalName, f.fileType, f.fileSize, f.encryptionAlgorithm,
   f.isEncrypted, f.createdAt⟩

structure AccessLogView where
  action : String
  ipAddress : String
  timestamp : Nat
deriving DecidableEq

structure FileDetailsB where
  id : Nat
  originalName : String
  fileType : String
  fileSize : Nat
  encryptionAlgorithm : String
  isEncrypted : Bool
  createdAt : Nat
  lastAccessed : Nat
  accessLogs : List AccessLogView
deriving DecidableEq

/-- POST /api/files/upload (routes.ts lines 670-748): multer stored the
plaintext at tempPath; the handler measures it, runs encryptFile (key, iv
and the random encrypted name being the randomBytes outcomes), saves the
record, appends the upload access log and unlinks the plaintext temp
file.  `createFails` models the awaited record create rejecting; any
rejection lands in the catch block, which unlinks only req.file.path
(the plaintext temp file) and answers 500. -/
def upload2 (E : List Nat → List Nat → List Nat) (key iv : List Nat)
    (encryptedName : String) (createFails : Bool) (st : StorageB) (fs : FS)
    (userId : Nat) (tempPath originalname fileExt : String) (now : Nat)
    (ip : String) : StorageB × FS × RouteResult UploadResponseB :=
  match fsRead fs tempPath with
  | none => (st, fsUnlinkSilent fs tempPath, .serverError)
  | some data =>
    match encryptFile E key iv encryptedName tempPath fs with
    | none => (st, fsUnlinkSilent fs tempPath, .serverError)
    | some (fs1, r) =>
      if createFails then (st, fsUnlinkSilent fs1 tempPath, .serverError)
      else
        let ins : InsertFileB :=
          ⟨userId, originalname, r.encryptedName, fileExt, r.filePath,
           data.length, "aes-256-cbc", true, r.key, r.iv⟩
        let (st1, savedFile) := st.createFile ins now
        let (st2, _) := st1.createAccessLog savedFile.id userId "upload" ip now
        (st2, fsUnlinkSilent fs1 tempPath, .ok savedFile.toUploadResponse)

/-- GET /api/files (routes.ts lines 751-773): the list response keeps only
the non-sensitive fields of each owned file. -/
def listFiles2 (st : StorageB) (userId : Nat) : RouteResult (List FileListItemB) :=
  .ok ((st.getFiles userId).map FileB.toListItem)

/-- GET /api/files/:id (routes.ts lines 776-829): owner only; appends a view
access log, refreshes lastAccessed, and responds with the non-sensitive
fields plus the five most recent access log rows. -/
def getFileDetails2 (st : StorageB) (userId fileId : Nat) (now : Nat) (ip : String) :
    StorageB × RouteResult FileDetailsB :=
  match st.getFile fileId with
  | none => (st, .notFound)
  | some file =>
    if file.userId != userId then (st, .forbidden)
    else
      let (st1, _) := st.createAccessLog file.id userId "view" ip now
      let st2 := st1.updateLastAccessed fileId now
      let logs := st2.getFileAccessLogs fileId 5
      (st2, .ok ⟨file.id, file.originalName, file.fileType, file.fileSize,
                 file.encryptionAlgorithm, file.isEncrypted, file.createdAt,
                 file.lastAccessed,
                 logs.map (fun lg => ⟨lg.action, lg.ipAddress, lg.timestamp⟩)⟩)

/-- GET /api/files/:id/download (routes.ts lines 832-881): owner only;
appends a download access log, refreshes lastAccessed, decrypts the blob
with the stored key and IV, and sends the decrypted bytes.  There is no
digest recomputation or comparison and the result type has no integrity
failure: a decryption that completes is delivered as-is. -/
def download2 (D : List Nat → List Nat → List Nat) (st : StorageB) (fs : FS)
    (userId fileId : Nat) (now : Nat) (ip : String) :
    StorageB × RouteResult (List Nat) :=
  match st.getFile fileId with
  | none => (st, .notFound)
  | some file =>
    if file.userId != userId then (st, .forbidden)
    else
      let (st1, _) := st.createAccessLog file.id userId "download" ip now
      let st2 := st1.updateLastAccessed fileId now
      match decryptFile D file.fileKey file.fileIV file.filePath fs with
      | none => (st2, .serverError)
      | some decryptedData => (st2, .ok decryptedData)

/-- DELETE /api/files/:id (routes.ts lines 884-922): owner only; appends the
delete access log before removal, deletes the encrypted blob (errors
swallowed by deleteEncryptedFile) and then the record. -/
def delete2 (st : StorageB) (fs : FS) (userId fileId : Nat) (now : Nat) (ip : String) :
    StorageB × FS × RouteResult String :=
  match st.getFile fileId with
  | none => (st, fs, .notFound)
  | some file =>
    if file.userId != userId then (st, fs, .forbidden)
    else
      let (st1, _) := st.createAccessLog file.id userId "delete" ip now
      let fs1 := fsUnlinkSilent fs file.filePath
      let (st2, _) := st1.deleteFile fileId
      (st2, fs1, .ok "File deleted successfully")

/-! ### Cipher engine lemmas -/

lemma zipWith_xor_cancel (b p : List Nat) (h : b.length ≤ p.length) :
    List.zipWith Nat.xor (List.zipWith Nat.xor b p) p = b := by
  induction b generalizing p with
  | nil => simp
  | cons x xs ih =>
    cases p with
    | nil => simp at h
    | cons y ys =>
      simp only [List.zipWith_cons_cons, List.cons.injEq]
      refine ⟨Nat.xor_cancel_right y x, ih ys ?_⟩
      simpa using h

lemma chunk16Aux_flatten (fuel : Nat) (l : List Nat) (h : l.length ≤ fuel) :
    (chunk16Aux fuel l).flatten = l := by
  induction fuel generalizing l with
  | zero =>
    cases l with
    | nil => simp [chunk16Aux]
    | cons a rest => simp only [List.length_cons] at h; omega
  | succ fuel ih =>
    cases l with
    | nil => simp [chunk16Aux]
    | cons a rest =>
      simp only [chunk16Aux, List.flatten_cons]
      rw [ih _ (by simp only [List.length_drop, List.length_cons] at h ⊢; omega)]
      exact List.take_append_drop 16 _

lemma chunk16_flatten (l : List Nat) : (chunk16 l).flatten = l :=
  chunk16Aux_flatten l.length l le_rfl

lemma chunk16Aux_block_len (fuel : Nat) (l : List Nat) (h : l.length ≤ fuel)
    (hmod : l.length % 16 = 0) : ∀ blk ∈ chunk16Aux fuel l, blk.length = 16 := by
  induction fuel generalizing l with
  | zero =>
    cases l with
    | nil => simp [chunk16Aux]
    | cons a rest => simp only [List.length_cons] at h; omega
  | succ fuel ih =>
    cases l with
    | nil => simp [chunk16Aux]
    | cons a rest =>
      intro blk hblk
      simp only [chunk16Aux, List.mem_cons] at hblk
      rcases hblk with h1 | h2
      · subst h1
        simp only [List.length_take, List.length_cons]
        simp only [List.length_cons] at hmod
        omega
      · refine ih _ ?_ ?_ blk h2
        · simp only [List.length_drop, List.length_cons] at h ⊢; omega
        · simp only [List.length_drop, List.length_cons] at hmod ⊢; omega

lemma chunk16_block_len (l : List Nat) (hmod : l.length % 16 = 0) :
    ∀ blk ∈ chunk16 l, blk.length = 16 :=
  chunk16Aux_block_len l.length l le_rfl hmod

lemma chunk16Aux_of_flatten (bs : List (List Nat)) :
    ∀ fuel, (∀ b ∈ bs, b.length = 16) → bs.flatten.length ≤ fuel →
    chunk16Aux fuel bs.flatten = bs := by
  induction bs with
  | nil =>
    intro fuel _ _
    cases fuel <;> simp [chunk16Aux]
  | cons b rest ih =>
    intro fuel hb hlen
    have hb16 : b.length = 16 := hb b (List.mem_cons_self _ _)
    obtain ⟨b0, btl, rfl⟩ : ∃ x xs, b = x :: xs := by
      cases b with
      | nil => simp at hb16
      | cons x xs => exact ⟨x, xs, rfl⟩
    have hflat : ((b0 :: btl) :: rest).flatten = b0 :: (btl ++ rest.flatten) := by
      simp [List.flatten_cons]
    rw [hflat]
    have hlen2 : (b0 :: (btl ++ rest.flatten)).length = 16 + rest.flatten.length := by
      simp only [List.length_cons, List.length_append]
      simp only [List.length_cons] at hb16
      omega
    cases fuel with
    | zero =>
      rw [hflat] at hlen
      simp only [List.length_cons] at hlen
      omega
    | succ fuel =>
      simp only [chunk16Aux]
      have hsplit : b0 :: (btl ++ rest.flatten) = (b0 :: btl) ++ rest.flatten := rfl
      rw [hsplit, ← hb16, List.take_left, List.drop_left]
      have hrest : chunk16Aux fuel rest.flatten = rest := by
        refine ih fuel (fun x hx => hb x (List.mem_cons_of_mem _ hx)) ?_
        rw [hflat] at hlen
        rw [hlen2] at hlen
        omega
      rw [hrest]

lemma chunk16_of_flatten (bs : List (List Nat)) (hb : ∀ b ∈ bs, b.length = 16) :
    chunk16 bs.flatten = bs :=
  chunk16Aux_of_flatten bs bs.flatten.length hb le_rfl

lemma flatten_blocks_mod (bs : List (List Nat)) (h : ∀ b ∈ bs, b.length = 16) :
    bs.flatten.length % 16 = 0 := by
  induction bs with
  | nil => simp
  | cons b rest ih =>
    simp only [List.flatten_cons, List.length_append, h b (List.mem_cons_self _ _)]
    have := ih (fun x hx => h x (List.mem_cons_of_mem _ hx))
    omega

lemma cbcEncBlocks_block_len (E : List Nat → List Nat)
    (hElen : ∀ b, b.length = 16 → (E b).length = 16) :
    ∀ (bs : List (List Nat)) (prev : List Nat), prev.length = 16 →
    (∀ b ∈ bs, b.length = 16) →
    ∀ c ∈ cbcEncBlocks E prev bs, c.length = 16 := by
  intro bs
  induction bs with
  | nil => intro prev _ _ c hc; simp [cbcEncBlocks] at hc
  | cons b rest ih =>
    intro prev hprev hb c hc
    simp only [cbcEncBlocks, List.mem_cons] at hc
    have hxlen : (List.zipWith Nat.xor b prev).length = 16 := by
      rw [List.length_zipWith, hb b (List.mem_cons_self _ _), hprev]
      simp
    rcases hc with h1 | h2
    · rw [h1]; exact hElen _ hxlen
    · exact ih (E (List.zipWith Nat.xor b prev)) (hElen _ hxlen)
        (fun x hx => hb x (List.mem_cons_of_mem _ hx)) c h2

lemma cbcDec_cbcEnc (E D : List Nat → List Nat) (hED : ∀ b, D (E b) = b)
    (hElen : ∀ b, b.length = 16 → (E b).length = 16) :
    ∀ (bs : List (List Nat)) (prev : List Nat), prev.length = 16 →
    (∀ b ∈ bs, b.length = 16) →
    cbcDecBlocks D prev (cbcEncBlocks E prev bs) = bs := by
  intro bs
  induction bs with
  | nil => intro prev _ _; simp [cbcEncBlocks, cbcDecBlocks]
  | cons b rest ih =>
    intro prev hprev hb
    have hxlen : (List.zipWith Nat.xor b prev).length = 16 := by
      rw [List.length_zipWith, hb b (List.mem_cons_self _ _), hprev]
      simp
    simp only [cbcEncBlocks, cbcDecBlocks, List.cons.injEq]
    constructor
    · rw [hED]
      refine zipWith_xor_cancel b prev ?_
      rw [hb b (List.mem_cons_self _ _), hprev]
    · exact ih (E (List.zipWith Nat.xor b prev)) (hElen _ hxlen)
        (fun x hx => hb x (List.mem_cons_of_mem _ hx))

lemma getLast?_replicate (n a : Nat) (h : n ≠ 0) :
    (List.replicate n a).getLast? = some a := by
  cases n with
  | zero => omega
  | succ m => rw [List.replicate_succ', List.getLast?_concat]

lemma pkcs7Pad_length_mod (l : List Nat) : (pkcs7Pad l).length % 16 = 0 := by
  simp only [pkcs7Pad, List.length_append, List.length_replicate]
  omega

lemma pkcs7Unpad_append_replicate (l : List Nat) (p : Nat) (h1 : 1 ≤ p)
    (h2 : p ≤ 16) : pkcs7Unpad (l ++ List.replicate p p) = some l := by
  unfold pkcs7Unpad
  have hlast : (l ++ List.replicate p p).getLast? = some p := by
    rw [List.getLast?_append, getLast?_replicate _ _ (by omega)]
    rfl
  rw [hlast, Option.some_bind]
  have hlen : (l ++ List.replicate p p).length = l.length + p := by simp
  rw [if_neg (by rw [hlen]; omega)]
  have hsub : (l ++ List.replicate p p).length - p = l.length := by
    rw [hlen]; omega
  rw [hsub, List.drop_left, List.take_left]
  rw [if_pos (by simp [List.all_eq_true, List.mem_replicate])]

lemma pkcs7Unpad_pad (l : List Nat) : pkcs7Unpad (pkcs7Pad l) = some l := by
  have hplt : l.length % 16 < 16 := Nat.mod_lt _ (by norm_num)
  unfold pkcs7Pad
  exact pkcs7Unpad_append_replicate l _ (by omega) (by omega)

/-- CBC with PKCS#7 padding round-trips whenever the block primitive does. -/
lemma cbc_roundtrip (E D : List Nat → List Nat) (hED : ∀ b, D (E b) = b)
    (hElen : ∀ b, b.length = 16 → (E b).length = 16) (iv : List Nat)
    (hiv : iv.length = 16) (data : List Nat) :
    cbcDecrypt D iv (cbcEncrypt E iv data) = some data := by
  unfold cbcEncrypt cbcDecrypt
  have hblocks : ∀ b ∈ chunk16 (pkcs7Pad data), b.length = 16 :=
    chunk16_block_len _ (pkcs7Pad_length_mod data)
  have hencblocks : ∀ c ∈ cbcEncBlocks E iv (chunk16 (pkcs7Pad data)), c.length = 16 :=
    cbcEncBlocks_block_len E hElen _ iv hiv hblocks
  rw [if_pos (flatten_blocks_mod _ hencblocks)]
  rw [chunk16_of_flatten _ hencblocks]
  rw [cbcDec_cbcEnc E D hED hElen _ iv hiv hblocks]
  rw [chunk16_flatten]
  exact pkcs7Unpad_pad data

/-! ### Filesystem lemmas -/

lemma find?_filter_ne {l : List (String × List Nat)} {p q : String} (h : q ≠ p) :
    (l.filter (fun e => e.1 != p)).find? (fun e => e.1 == q)
      = l.find? (fun e => e.1 == q) := by
  induction l with
  | nil => simp
  | cons e rest ih =>
    by_cases hp : e.1 = p
    · rw [show List.filter (fun e => e.1 != p) (e :: rest)
            = List.filter (fun e => e.1 != p) rest from
          List.filter_cons_of_neg (by simp [hp])]
      rw [show List.find? (fun e => e.1 == q) (e :: rest)
            = List.find? (fun e => e.1 == q) rest from
          List.find?_cons_of_neg _ (by simp [hp, beq_iff_eq]; exact fun hc => h hc.symm)]
      exact ih
    · rw [show List.filter (fun e => e.1 != p) (e :: rest)
            = e :: List.filter (fun e => e.1 != p) rest from
          List.filter_cons_of_pos (by simp [hp])]
      by_cases hq : e.1 = q
      · rw [show List.find? (fun e => e.1 == q) (e :: List.filter (fun e => e.1 != p) rest)
              = some e from List.find?_cons_of_pos _ (by simp [hq])]
        rw [show List.find? (fun e => e.1 == q) (e :: rest)
              = some e from List.find?_cons_of_pos _ (by simp [hq])]
      · rw [show List.find? (fun e => e.1 == q) (e :: List.filter (fun e => e.1 != p) rest)
              = List.find? (fun e => e.1 == q) (List.filter (fun e => e.1 != p) rest) from
            List.find?_cons_of_neg _ (by simp [hq])]
        rw [show List.find? (fun e => e.1 == q) (e :: rest)
              = List.find? (fun e => e.1 == q) rest from
          List.find?_cons_of_neg _ (by simp [hq])]
        exact ih

lemma fsRead_fsWrite_self (fs : FS) (p : String) (d : List Nat) :
    fsRead (fsWrite fs p d) p = some d := by
  simp [fsRead, fsWrite, List.find?_cons_of_pos]

lemma fsRead_fsWrite_ne (fs : FS) (p q : String) (d : List Nat) (h : q ≠ p) :
    fsRead (fsWrite fs p d) q = fsRead fs q := by
  simp only [fsRead, fsWrite]
  rw [List.find?_cons_of_neg _ (by simp [Ne.symm h])]
  rw [find?_filter_ne h]

lemma fsRead_fsUnlinkSilent_self (fs : FS) (p : String) :
    fsRead (fsUnlinkSilent fs p) p = none := by
  simp only [fsRead, fsUnlinkSilent]
  rw [List.find?_eq_none.mpr]
  · rfl
  · intro e he
    have := (List.mem_filter.mp he).2
    simp only [bne_iff_ne, ne_eq] at this
    simp [this]

lemma fsRead_fsUnlinkSilent_ne (fs : FS) (p q : String) (h : q ≠ p) :
    fsRead (fsUnlinkSilent fs p) q = fsRead fs q := by
  simp only [fsRead, fsUnlinkSilent]
  rw [find?_filter_ne h]

/-! ### Storage helper lemmas -/

lemma getFileA_eq_some {s : StorageA} {id : Nat} {f : FileA}
    (h : s.getFile id = some f) : f ∈ s.files ∧ f.id = id := by
  refine ⟨List.mem_of_find?_eq_some h, ?_⟩
  have := List.find?_some h
  simpa [beq_iff_eq] using this

lemma getUserA_eq_some {s : StorageA} {id : Nat} {u : UserA}
    (h : s.getUser id = some u) : u ∈ s.users ∧ u.id = id := by
  refine ⟨List.mem_of_find?_eq_some h, ?_⟩
  have := List.find?_some h
  simpa [beq_iff_eq] using this

lemma mem_sharedWith_iff {s : StorageA} {uid : Nat} {e : SharedWithEntry} :
    e ∈ s.getFilesSharedWithUser uid ↔
      e.sharedFile ∈ s.sharedFiles ∧ e.sharedFile.sharedWithUserId = uid ∧
      s.getFile e.sharedFile.fileId = some e.file ∧
      s.getUser e.sharedFile.sharedByUserId = some e.sharedByUser := by
  unfold StorageA.getFilesSharedWithUser
  rw [List.mem_filterMap]
  constructor
  · rintro ⟨sf, hmem, hstep⟩
    rcases List.mem_filter.mp hmem with ⟨hin, hcond⟩
    cases hf : s.getFile sf.fileId with
    | none => rw [hf] at hstep; simp at hstep
    | some file =>
      cases hu : s.getUser sf.sharedByUserId with
      | none => rw [hf, hu] at hstep; simp at hstep
      | some user =>
        rw [hf, hu] at hstep
        simp only [Option.some.injEq] at hstep
        subst hstep
        exact ⟨hin, by simpa [beq_iff_eq] using hcond, hf, hu⟩
  · rintro ⟨hmem, hcond, hf, hu⟩
    refine ⟨e.sharedFile, List.mem_filter.mpr ⟨hmem, by simp [beq_iff_eq, hcond]⟩, ?_⟩
    rw [hf, hu]

lemma mem_sharedBy_iff {s : StorageA} {uid : Nat} {e : SharedByEntry} :
    e ∈ s.getFilesSharedByUser uid ↔
      e.sharedFile ∈ s.sharedFiles ∧ e.sharedFile.sharedByUserId = uid ∧
      s.getFile e.sharedFile.fileId = some e.file ∧
      s.getUser e.sharedFile.sharedWithUserId = some e.sharedWithUser := by
  unfold StorageA.getFilesSharedByUser
  rw [List.mem_filterMap]
  constructor
  · rintro ⟨sf, hmem, hstep⟩
    rcases List.mem_filter.mp hmem with ⟨hin, hcond⟩
    cases hf : s.getFile sf.fileId with
    | none => rw [hf] at hstep; simp at hstep
    | some file =>
      cases hu : s.getUser sf.sharedWithUserId with
      | none => rw [hf, hu] at hstep; simp at hstep
      | some user =>
        rw [hf, hu] at hstep
        simp only [Option.some.injEq] at hstep
        subst hstep
        exact ⟨hin, by simpa [beq_iff_eq] using hcond, hf, hu⟩
  · rintro ⟨hmem, hcond, hf, hu⟩
    refine ⟨e.sharedFile, List.mem_filter.mpr ⟨hmem, by simp [beq_iff_eq, hcond]⟩, ?_⟩
    rw [hf, hu]

lemma findA_filter_bne_none (files : List FileA) (id : Nat) :
    (files.filter (fun f => f.id != id)).find? (fun f => f.id == id) = none := by
  rw [List.find?_eq_none]
  intro f hf
  have := (List.mem_filter.mp hf).2
  simp only [bne_iff_ne, ne_eq] at this
  simp [this]

lemma findB_filter_bne_none (files : List FileB) (id : Nat) :
    (files.filter (fun f => f.id != id)).find? (fun f => f.id == id) = none := by
  rw [List.find?_eq_none]
  intro f hf
  have := (List.mem_filter.mp hf).2
  simp only [bne_iff_ne, ne_eq] at this
  simp [this]

/-! ### Claim theorems -/

/-- C7: decrypting the ciphertext produced by encryptFile with the key and
IV generated by that same call yields exactly the source payload,
provided the external block primitive is inverted by its decrypt
counterpart (the AES-256 contract).  The second half of the claim has no
referent in the code: EncryptResult consists of filePath, encryptedName,
key and iv only — encryptFile produces no digest, and decryptFile
recomputes none, so no digest equation can hold or fail at this
interface (see the C2 development for the read path). -/
theorem C7_encrypt_decrypt_roundtrip
    (E D : List Nat → List Nat → List Nat) (key iv : List Nat)
    (hED : ∀ b, D key (E key b) = b)
    (hElen : ∀ b, b.length = 16 → (E key b).length = 16)
    (hiv : iv.length = 16)
    (encryptedName sourcePath : String) (fs : FS) (P : List Nat)
    (hsrc : fsRead fs sourcePath = some P) :
    ∃ fs1 r, encryptFile E key iv encryptedName sourcePath fs = some (fs1, r)
      ∧ r.key = key ∧ r.iv = iv
      ∧ decryptFile D r.key r.iv r.filePath fs1 = some P := by
  unfold encryptFile
  rw [hsrc]
  refine ⟨_, _, rfl, rfl, rfl, ?_⟩
  unfold decryptFile
  rw [fsRead_fsWrite_self]
  exact cbc_roundtrip (E key) (D key) hED hElen iv hiv P

/-- Witness for C7 at the payload [1, 2, 3] with the identity block
primitive standing in for the external AES permutation. -/
theorem C7_roundtrip_witness :
    ∃ fs1 r, encryptFile (fun _ b => b) [5] (List.replicate 16 0) "e1"
        "uploads/t1" ⟨[("uploads/t1", [1, 2, 3])]⟩ = some (fs1, r)
      ∧ r.key = [5] ∧ r.iv = List.replicate 16 0
      ∧ decryptFile (fun _ b => b) r.key r.iv r.filePath fs1 = some [1, 2, 3] :=
  C7_encrypt_decrypt_roundtrip (fun _ b => b) (fun _ b => b) [5]
    (List.replicate 16 0) (fun _ => rfl) (fun _ h => h) (by decide)
    "e1" "uploads/t1" ⟨[("uploads/t1", [1, 2, 3])]⟩ [1, 2, 3] (by decide)

def fileC1 : FileA :=
  ⟨1, 1, "17-1.pdf", "report.pdf", "application/pdf", 3, [9], true,
   some "AES-256", some [4, 5], 10⟩

def serverC1 : ServerA :=
  ⟨⟨[⟨1, "alice", "a@x"⟩], [], [], 2, 1, 1⟩, [("17-1.pdf", [1, 2, 3])], []⟩

/-- C1: the upload route of routes.ts lines 178-226 marks the created
record encrypted (encrypted = true, encryptionType AES-256, a stored IV)
yet the bytes persisted under the storage location file.name are the
uploaded plaintext, unchanged; no cipher runs and no key is generated
(FileA, per the schema, has no key field at all), contradicting both the
claim and the route comment announcing key generation. -/
theorem C1_upload_stores_plaintext_marked_encrypted :
    (upload1 (fun _ => [9]) serverC1 1 "17-1.pdf" "report.pdf"
        "application/pdf" [4, 5] 10).2.1
      = .ok ⟨"File uploaded successfully", fileC1⟩
    ∧ fileC1.encrypted = true ∧ fileC1.iv = some [4, 5]
    ∧ diskRead (upload1 (fun _ => [9]) serverC1 1 "17-1.pdf" "report.pdf"
        "application/pdf" [4, 5] 10).1.uploadDisk fileC1.name
      = some [1, 2, 3] := by
  decide

def fileC2 : FileB :=
  ⟨1, 1, "a.txt", "e1", "txt", "uploads/encrypted/e1", 3, "aes-256-cbc",
   true, [5], List.replicate 16 0, 0, 0⟩

def storageC2 : StorageB := ⟨[fileC2], [], 2, 1⟩

/-- The blob as originally written for the plaintext [1, 2, 3], then
overwritten by a tampered ciphertext that decrypts to [9, 9, 9]. -/
def fsC2 : FS :=
  fsWrite ⟨[("uploads/encrypted/e1",
             cbcEncrypt (fun b => b) (List.replicate 16 0) [1, 2, 3])]⟩
    "uploads/encrypted/e1" (cbcEncrypt (fun b => b) (List.replicate 16 0) [9, 9, 9])

/-- C2: the download route decrypts and delivers whatever the stored blob
decrypts to, with no digest recomputation and no IntegrityError: after
the stored ciphertext of the file created for [1, 2, 3] is replaced by a
tampered blob, the download succeeds and hands out [9, 9, 9].  The
RouteResult type of the route has no integrity failure at all, so no
read path can fail that way. -/
theorem C2_download_has_no_integrity_check :
    (download2 (fun _ b => b) storageC2 fsC2 1 1 5 "ip").2 = .ok [9, 9, 9]
    ∧ [9, 9, 9] ≠ [1, 2, 3] := by
  decide

def userA1 : UserA := ⟨1, "alice", "a@x"⟩
def userA2 : UserA := ⟨2, "bob", "b@x"⟩
def userA3 : UserA := ⟨3, "carol", "c@x"⟩
def fileA1 : FileA :=
  ⟨1, 1, "17-1.pdf", "report.pdf", "application/pdf", 3, [7], true,
   some "AES-256", some [0], 10⟩
def grantView1 : SharedFileA := ⟨1, 1, 1, 2, "view", none, 11, false⟩
def grantFull1 : SharedFileA := ⟨2, 1, 1, 2, "full", none, 12, false⟩
def grantDl1 : SharedFileA := ⟨3, 1, 1, 3, "download", none, 13, false⟩

/-- User 2 holds a view grant created before a full grant on the same file. -/
def serverOverlap : ServerA :=
  ⟨⟨[userA1, userA2], [fileA1], [grantView1, grantFull1], 3, 2, 3⟩,
   [("17-1.pdf", [1, 2, 3])], []⟩

/-- C3 counterexample: user 2 has effective level full under the spec
definition (highest grant), yet the download route walks the join in
insertion order, finds the earlier view grant first and answers 403. -/
theorem C3_counterexample_full_grant_denied :
    specEffectiveLevel serverOverlap.store 1 2 = some "full"
    ∧ download1 serverOverlap 2 1 = .forbidden := by
  decide

/-- C3 amended: for a file the requester does not own, a requester all of
whose grants on the file are view-level is denied Download but allowed
ViewMetadata (provided at least one of those grants joins, i.e. its
grantor still exists); a requester whose FIRST joined grant for the file
is download- or full-level is served; the owner is always served.  The
amendment relative to the claim: with overlapping grants the
earliest-created grant governs, not the highest one. -/
theorem C3_view_blocks_download_not_metadata (s : ServerA) (fileId : Nat)
    (file : FileA) (hfile : s.store.getFile fileId = some file) :
    (∀ uid, file.userId ≠ uid →
      (∃ sf ∈ s.store.sharedFiles, sf.fileId = fileId ∧ sf.sharedWithUserId = uid ∧
        (s.store.getUser sf.sharedByUserId).isSome = true) →
      (∀ sf ∈ s.store.sharedFiles, sf.fileId = fileId → sf.sharedWithUserId = uid →
        sf.permissionLevel = "view") →
      download1 s uid fileId = .forbidden ∧ getFileRoute1 s uid fileId = .ok file)
    ∧ (∀ uid e bytes, file.userId ≠ uid →
        (s.store.getFilesSharedWithUser uid).find? (fun en => en.file.id == fileId)
          = some e →
        (e.sharedFile.permissionLevel = "download"
          ∨ e.sharedFile.permissionLevel = "full") →
        diskRead s.uploadDisk file.name = some bytes →
        download1 s uid fileId = .ok bytes)
    ∧ (∀ bytes, diskRead s.uploadDisk file.name = some bytes →
        download1 s file.userId fileId = .ok bytes) := by
  refine ⟨?_, ?_, ?_⟩
  · intro uid hne hex hview
    have hbne : (file.userId != uid) = true := by
      simp only [bne_iff_ne, ne_eq]
      exact hne
    constructor
    · unfold download1
      rw [hfile]
      simp only []
      rw [if_pos hbne]
      cases hfind : (s.store.getFilesSharedWithUser uid).find?
          (fun en => en.file.id == fileId) with
      | none => rfl
      | some e =>
        simp only []
        have hmem := List.mem_of_find?_eq_some hfind
        have hpred := List.find?_some hfind
        rcases mem_sharedWith_iff.mp hmem with ⟨hsfMem, hsfUid, hsfFile, _⟩
        have hefid : e.file.id = fileId := by simpa [beq_iff_eq] using hpred
        have hgid : e.sharedFile.fileId = fileId := by
          have h2 := (getFileA_eq_some hsfFile).2
          rw [← h2, hefid]
        have hlv : e.sharedFile.permissionLevel = "view" :=
          hview e.sharedFile hsfMem hgid hsfUid
        rw [if_pos hlv]
    · unfold getFileRoute1
      rw [hfile]
      simp only []
      rw [if_pos hbne]
      obtain ⟨sf, hsfmem, hsffid, hsfuid, hsfuser⟩ := hex
      obtain ⟨u, hu⟩ := Option.isSome_iff_exists.mp hsfuser
      have hentry : (⟨sf, file, u⟩ : SharedWithEntry)
          ∈ s.store.getFilesSharedWithUser uid := by
        rw [mem_sharedWith_iff]
        exact ⟨hsfmem, hsfuid, by rw [hsffid]; exact hfile, hu⟩
      have hany : (s.store.getFilesSharedWithUser uid).any
          (fun en => en.file.id == fileId) = true := by
        rw [List.any_eq_true]
        refine ⟨⟨sf, file, u⟩, hentry, ?_⟩
        simp [beq_iff_eq, (getFileA_eq_some hfile).2]
      rw [if_pos hany]
  · intro uid e bytes hne hfind hlv hbytes
    have hbne : (file.userId != uid) = true := by
      simp only [bne_iff_ne, ne_eq]
      exact hne
    unfold download1
    rw [hfile]
    simp only []
    rw [if_pos hbne, hfind]
    simp only []
    have hnview : ¬(e.sharedFile.permissionLevel = "view") := by
      rcases hlv with h | h <;> simp [h]
    rw [if_neg hnview, hbytes]
  · intro bytes hbytes
    unfold download1
    rw [hfile]
    simp only []
    rw [if_neg (by simp), hbytes]

/-- User 2 holds only a view grant; user 3 holds a download grant. -/
def serverLedger : ServerA :=
  ⟨⟨[userA1, userA2, userA3], [fileA1], [grantView1, grantDl1], 4, 2, 4⟩,
   [("17-1.pdf", [1, 2, 3])], []⟩

/-- Witness for the amended C3 on a concrete ledger. -/
theorem C3_view_blocks_download_witness :
    (download1 serverLedger 2 1 = .forbidden ∧ getFileRoute1 serverLedger 2 1 = .ok fileA1)
    ∧ download1 serverLedger 3 1 = .ok [1, 2, 3]
    ∧ download1 serverLedger 1 1 = .ok [1, 2, 3] := by
  have h := C3_view_blocks_download_not_metadata serverLedger 1 fileA1 (by decide)
  refine ⟨h.1 2 (by decide) ⟨grantView1, by decide⟩ (by decide), ?_, ?_⟩
  · exact h.2.1 3 ⟨grantDl1, fileA1, userA1⟩ [1, 2, 3] (by decide) (by decide)
      (Or.inl rfl) (by decide)
  · exact h.2.2 [1, 2, 3] (by decide)

/-- The variant A delete route on the owner path: unlink succeeds when the
blob is present, the record store cascades, FILE_DELETED is fanned out. -/
lemma delete1_owner_eq (s : ServerA) (fileId : Nat) (file : FileA) (bytes : List Nat)
    (hfile : s.store.getFile fileId = some file)
    (hbytes : diskRead s.uploadDisk file.name = some bytes) :
    delete1 s file.userId fileId =
      ({ s with store := (s.store.deleteFile fileId).1,
                uploadDisk := s.uploadDisk.filter (fun e => e.1 != file.name) },
       .ok "File deleted successfully",
       fanout s.clients (toString file.userId) (.fileDeleted fileId)) := by
  unfold delete1
  rw [hfile]
  simp only []
  rw [if_neg (by simp)]
  have hunlink : diskUnlinkStrict s.uploadDisk file.name
      = some (s.uploadDisk.filter (fun e => e.1 != file.name)) := by
    unfold diskUnlinkStrict
    rw [hbytes]
  rw [hunlink]

lemma deleteFileA_eq (s : StorageA) (id : Nat) :
    (s.deleteFile id).1
      = { s with files := s.files.filter (fun f => f.id != id),
                 sharedFiles := s.sharedFiles.filter (fun sf => sf.fileId != id) } :=
  rfl

/-- C4: in both delete routes, a requester other than the owner of an
existing file gets 403 with the entire state — record, grants, blobs,
registry — untouched, while a delete by the owner does remove the record. -/
theorem C4_delete_requires_ownership :
    (∀ (s : ServerA) (fileId : Nat) (file : FileA) (uid : Nat),
        s.store.getFile fileId = some file → uid ≠ file.userId →
        delete1 s uid fileId = (s, .forbidden, []))
    ∧ (∀ (s : ServerA) (fileId : Nat) (file : FileA) (bytes : List Nat),
        s.store.getFile fileId = some file →
        diskRead s.uploadDisk file.name = some bytes →
        (delete1 s file.userId fileId).2.1 = .ok "File deleted successfully"
        ∧ (delete1 s file.userId fileId).1.store.getFile fileId = none)
    ∧ (∀ (st : StorageB) (fs : FS) (fileId : Nat) (file : FileB) (uid now : Nat)
          (ip : String),
        st.getFile fileId = some file → uid ≠ file.userId →
        delete2 st fs uid fileId now ip = (st, fs, .forbidden))
    ∧ (∀ (st : StorageB) (fs : FS) (fileId : Nat) (file : FileB) (now : Nat)
          (ip : String),
        st.getFile fileId = some file →
        (delete2 st fs file.userId fileId now ip).2.2 = .ok "File deleted successfully"
        ∧ (delete2 st fs file.userId fileId now ip).1.getFile fileId = none) := by
  refine ⟨?_, ?_, ?_, ?_⟩
  · intro s fileId file uid hfile hne
    unfold delete1
    rw [hfile]
    simp only []
    rw [if_pos (by simp only [bne_iff_ne, ne_eq]; exact Ne.symm hne)]
  · intro s fileId file bytes hfile hbytes
    rw [delete1_owner_eq s fileId file bytes hfile hbytes]
    refine ⟨rfl, ?_⟩
    show (s.store.deleteFile fileId).1.getFile fileId = none
    rw [deleteFileA_eq]
    exact findA_filter_bne_none s.store.files fileId
  · intro st fs fileId file uid now ip hfile hne
    unfold delete2
    rw [hfile]
    simp only []
    rw [if_pos (by simp only [bne_iff_ne, ne_eq]; exact Ne.symm hne)]
  · intro st fs fileId file now ip hfile
    unfold delete2
    rw [hfile]
    simp only []
    rw [if_neg (by simp)]
    exact ⟨rfl, findB_filter_bne_none st.files fileId⟩

/-- Witness for C4 on a concrete state: user 2 cannot delete the file of
user 1 and nothing changes; user 1 can, and the record is gone; the same
on a variant B state. -/
theorem C4_delete_requires_ownership_witness :
    delete1 serverLedger 2 1 = (serverLedger, .forbidden, [])
    ∧ ((delete1 serverLedger 1 1).2.1 = .ok "File deleted successfully"
        ∧ (delete1 serverLedger 1 1).1.store.getFile 1 = none)
    ∧ delete2 storageC2 fsC2 2 1 5 "ip" = (storageC2, fsC2, .forbidden)
    ∧ ((delete2 storageC2 fsC2 1 1 5 "ip").2.2 = .ok "File deleted successfully"
        ∧ (delete2 storageC2 fsC2 1 1 5 "ip").1.getFile 1 = none) := by
  have h := C4_delete_requires_ownership
  exact ⟨h.1 serverLedger 1 fileA1 2 (by decide) (by decide),
         h.2.1 serverLedger 1 fileA1 [1, 2, 3] (by decide) (by decide),
         h.2.2.1 storageC2 fsC2 1 fileC2 2 5 "ip" (by decide) (by decide),
         h.2.2.2 storageC2 fsC2 1 fileC2 5 "ip" (by decide)⟩

/-- C6: after the owner deletes an existing file (with its blob present on
disk), the record is gone, no shared-file row referencing the file
survives the cascade, and no listing of files shared with any user still
contains an entry for it. -/
theorem C6_delete_cascades_grants (s : ServerA) (fileId : Nat) (file : FileA)
    (bytes : List Nat) (hfile : s.store.getFile fileId = some file)
    (hbytes : diskRead s.uploadDisk file.name = some bytes) :
    (delete1 s file.userId fileId).2.1 = .ok "File deleted successfully"
    ∧ (delete1 s file.userId fileId).1.store.getFile fileId = none
    ∧ ((delete1 s file.userId fileId).1.store.sharedFiles).all
        (fun sf => sf.fileId != fileId) = true
    ∧ ∀ uid, ((delete1 s file.userId fileId).1.store.getFilesSharedWithUser uid).all
        (fun e => e.sharedFile.fileId != fileId) = true := by
  rw [delete1_owner_eq s fileId file bytes hfile hbytes]
  refine ⟨rfl, ?_, ?_, ?_⟩
  · show (s.store.deleteFile fileId).1.getFile fileId = none
    rw [deleteFileA_eq]
    exact findA_filter_bne_none s.store.files fileId
  · show ((s.store.deleteFile fileId).1.sharedFiles).all
        (fun sf => sf.fileId != fileId) = true
    rw [deleteFileA_eq]
    rw [List.all_eq_true]
    intro sf hsf
    exact (List.mem_filter.mp hsf).2
  · intro uid
    show (((s.store.deleteFile fileId).1).getFilesSharedWithUser uid).all
        (fun e => e.sharedFile.fileId != fileId) = true
    rw [List.all_eq_true]
    intro e he
    have hmem := (mem_sharedWith_iff.mp he).1
    rw [deleteFileA_eq] at hmem
    exact (List.mem_filter.mp hmem).2

/-- Witness for C6: user 1 deletes the file shared with users 2 and 3; the
record is gone and both listings lose the entries. -/
theorem C6_delete_cascades_grants_witness :
    (delete1 serverLedger 1 1).2.1 = .ok "File deleted successfully"
    ∧ (delete1 serverLedger 1 1).1.store.getFile 1 = none
    ∧ ((delete1 serverLedger 1 1).1.store.sharedFiles).all
        (fun sf => sf.fileId != 1) = true
    ∧ ((delete1 serverLedger 1 1).1.store.getFilesSharedWithUser 2).all
        (fun e => e.sharedFile.fileId != 1) = true := by
  have h := C6_delete_cascades_grants serverLedger 1 fileA1 [1, 2, 3]
    (by decide) (by decide)
  exact ⟨h.1, h.2.1, h.2.2.1, h.2.2.2 2⟩

/-- C9: the clients.forEach fan-out delivers the event to every registered
connection of the target user whose socket is open; when the user has no
open connection nothing is delivered, nothing fails (fanout is total),
and nothing is persisted — the state produced by the publishing route is
independent of the registry and keeps the registry as it was (there is
no event store in the state at all). -/
theorem C9_publish_fanout_all_live_connections :
    (∀ (clients : List ClientConn) (u : String) (msg : WsMessage) (c : ClientConn),
        c ∈ clients → c.userId = u → c.isOpen = true →
        (c.connId, msg) ∈ fanout clients u msg)
    ∧ (∀ (clients : List ClientConn) (u : String) (msg : WsMessage),
        (∀ c ∈ clients, c.userId = u → c.isOpen = false) →
        fanout clients u msg = [])
    ∧ (∀ (sha256 : List Nat → List Nat) (st : StorageA)
          (disk : List (String × List Nat)) (cs : List ClientConn) (uid : Nat)
          (fn orig mime : String) (ivB : List Nat) (now : Nat),
        ((upload1 sha256 ⟨st, disk, cs⟩ uid fn orig mime ivB now).1).store
          = ((upload1 sha256 ⟨st, disk, []⟩ uid fn orig mime ivB now).1).store
        ∧ ((upload1 sha256 ⟨st, disk, cs⟩ uid fn orig mime ivB now).1).uploadDisk = disk
        ∧ ((upload1 sha256 ⟨st, disk, cs⟩ uid fn orig mime ivB now).1).clients = cs) := by
  refine ⟨?_, ?_, ?_⟩
  · intro clients u msg c hc hu hopen
    unfold fanout
    rw [List.mem_filterMap]
    exact ⟨c, hc, by simp [hu, hopen]⟩
  · intro clients u msg h
    unfold fanout
    rw [List.filterMap_eq_nil_iff]
    intro c hc
    by_cases hcu : c.userId = u
    · simp [hcu, h c hc hcu]
    · simp [hcu]
  · intro sha256 st disk cs uid fn orig mime ivB now
    unfold upload1
    simp only []
    cases hread : diskRead disk fn with
    | none => exact ⟨rfl, rfl, rfl⟩
    | some fileBuffer => exact ⟨rfl, rfl, rfl⟩

def clientsLive : List ClientConn := [⟨7, "1", true⟩, ⟨8, "1", true⟩, ⟨9, "2", true⟩]
def clientsDead : List ClientConn := [⟨7, "1", false⟩]
def msgC9 : WsMessage := .fileDeleted 1

/-- Witness for C9: user 1 has two live connections and both observe the
event; a user with no open connection gets an empty delivery list; the
persisted state of an upload is the same with and without registered
clients. -/
theorem C9_publish_fanout_witness :
    ((7, msgC9) ∈ fanout clientsLive "1" msgC9)
    ∧ ((8, msgC9) ∈ fanout clientsLive "1" msgC9)
    ∧ fanout clientsDead "1" msgC9 = []
    ∧ ((upload1 (fun _ => [9]) ⟨⟨[userA1], [], [], 2, 1, 1⟩,
          [("17-1.pdf", [1, 2, 3])], clientsLive⟩ 1 "17-1.pdf" "report.pdf"
          "application/pdf" [4, 5] 10).1).store
        = ((upload1 (fun _ => [9]) ⟨⟨[userA1], [], [], 2, 1, 1⟩,
          [("17-1.pdf", [1, 2, 3])], []⟩ 1 "17-1.pdf" "report.pdf"
          "application/pdf" [4, 5] 10).1).store := by
  have h := C9_publish_fanout_all_live_connections
  exact ⟨h.1 clientsLive "1" msgC9 ⟨7, "1", true⟩ (by decide) rfl rfl,
         h.1 clientsLive "1" msgC9 ⟨8, "1", true⟩ (by decide) rfl rfl,
         h.2.1 clientsDead "1" msgC9 (by decide),
         (h.2.2 (fun _ => [9]) ⟨[userA1], [], [], 2, 1, 1⟩
            [("17-1.pdf", [1, 2, 3])] clientsLive 1 "17-1.pdf" "report.pdf"
            "application/pdf" [4, 5] 10).1⟩

/-- C10: the two shared-file listings return exactly grants whose file and
counterpart user still resolve; a grant whose file or counterpart no
longer exists yields no entry (and the function is total, so no error
either). -/
theorem C10_shared_listings_join_only_live :
    (∀ (s : StorageA) (uid : Nat) (e : SharedWithEntry),
        e ∈ s.getFilesSharedWithUser uid →
        s.getFile e.sharedFile.fileId = some e.file
        ∧ s.getUser e.sharedFile.sharedByUserId = some e.sharedByUser
        ∧ e.sharedFile ∈ s.sharedFiles ∧ e.sharedFile.sharedWithUserId = uid)
    ∧ (∀ (s : StorageA) (uid : Nat) (sf : SharedFileA),
        s.getFile sf.fileId = none ∨ s.getUser sf.sharedByUserId = none →
        (s.getFilesSharedWithUser uid).all (fun e => e.sharedFile != sf) = true)
    ∧ (∀ (s : StorageA) (uid : Nat) (e : SharedByEntry),
        e ∈ s.getFilesSharedByUser uid →
        s.getFile e.sharedFile.fileId = some e.file
        ∧ s.getUser e.sharedFile.sharedWithUserId = some e.sharedWithUser
        ∧ e.sharedFile ∈ s.sharedFiles ∧ e.sharedFile.sharedByUserId = uid)
    ∧ (∀ (s : StorageA) (uid : Nat) (sf : SharedFileA),
        s.getFile sf.fileId = none ∨ s.getUser sf.sharedWithUserId = none →
        (s.getFilesSharedByUser uid).all (fun e => e.sharedFile != sf) = true) := by
  refine ⟨?_, ?_, ?_, ?_⟩
  · intro s uid e he
    rcases mem_sharedWith_iff.mp he with ⟨h1, h2, h3, h4⟩
    exact ⟨h3, h4, h1, h2⟩
  · intro s uid sf hdang
    rw [List.all_eq_true]
    intro e he
    rcases mem_sharedWith_iff.mp he with ⟨_, _, hf, hu⟩
    simp only [bne_iff_ne, ne_eq, decide_eq_true_eq]
    intro hEq
    rw [hEq] at hf hu
    rcases hdang with hd | hd
    · rw [hd] at hf; cases hf
    · rw [hd] at hu; cases hu
  · intro s uid e he
    rcases mem_sharedBy_iff.mp he with ⟨h1, h2, h3, h4⟩
    exact ⟨h3, h4, h1, h2⟩
  · intro s uid sf hdang
    rw [List.all_eq_true]
    intro e he
    rcases mem_sharedBy_iff.mp he with ⟨_, _, hf, hu⟩
    simp only [bne_iff_ne, ne_eq, decide_eq_true_eq]
    intro hEq
    rw [hEq] at hf hu
    rcases hdang with hd | hd
    · rw [hd] at hf; cases hf
    · rw [hd] at hu; cases hu

/-- A ledger still holding a grant whose file no longer exists. -/
def storageDangling : StorageA := ⟨[userA1, userA2], [], [grantView1], 3, 1, 2⟩

/-- Witness for C10: on the live ledger the entry for the surviving grant
resolves both joins; on the dangling ledger the orphaned grant is
omitted from both listings. -/
theorem C10_shared_listings_witness :
    (serverLedger.store.getFile grantView1.fileId = some fileA1
      ∧ serverLedger.store.getUser grantView1.sharedByUserId = some userA1
      ∧ grantView1 ∈ serverLedger.store.sharedFiles
      ∧ grantView1.sharedWithUserId = 2)
    ∧ (storageDangling.getFilesSharedWithUser 2).all
        (fun e => e.sharedFile != grantView1) = true
    ∧ (serverLedger.store.getFile grantView1.fileId = some fileA1
      ∧ serverLedger.store.getUser grantView1.sharedWithUserId = some userA2
      ∧ grantView1 ∈ serverLedger.store.sharedFiles
      ∧ grantView1.sharedByUserId = 1)
    ∧ (storageDangling.getFilesSharedByUser 1).all
        (fun e => e.sharedFile != grantView1) = true := by
  have h := C10_shared_listings_join_only_live
  exact ⟨h.1 serverLedger.store 2 ⟨grantView1, fileA1, userA1⟩ (by decide),
         h.2.1 storageDangling 2 grantView1 (Or.inl (by decide)),
         h.2.2.1 serverLedger.store 1 ⟨grantView1, fileA1, userA2⟩ (by decide),
         h.2.2.2 storageDangling 1 grantView1 (Or.inl (by decide))⟩

def fsC8 : FS := ⟨[("uploads/t1", [1, 2, 3])]⟩
def storageC8 : StorageB := ⟨[], [], 1, 1⟩

/-- C8 counterexample: an upload whose record create fails answers 500 yet
leaves the ciphertext blob it wrote under uploads/encrypted in place
with no metadata record at all (only the plaintext temp file is
unlinked by the catch block), refuting the claimed compensating
deletion at this concrete input. -/
theorem C8_counterexample_orphaned_ciphertext :
    (upload2 (fun _ b => b) [5] (List.replicate 16 0) "e1" true storageC8 fsC8 1
        "uploads/t1" "a.txt" "txt" 0 "ip").2.2 = .serverError
    ∧ fsRead (upload2 (fun _ b => b) [5] (List.replicate 16 0) "e1" true storageC8
        fsC8 1 "uploads/t1" "a.txt" "txt" 0 "ip").2.1 "uploads/encrypted/e1"
      = some (cbcEncrypt (fun b => b) (List.replicate 16 0) [1, 2, 3])
    ∧ (upload2 (fun _ b => b) [5] (List.replicate 16 0) "e1" true storageC8 fsC8 1
        "uploads/t1" "a.txt" "txt" 0 "ip").1.files = []
    ∧ fsRead (upload2 (fun _ b => b) [5] (List.replicate 16 0) "e1" true storageC8
        fsC8 1 "uploads/t1" "a.txt" "txt" 0 "ip").2.1 "uploads/t1" = none := by
  decide

/-- C8 amended: when the record create fails after the ciphertext has been
persisted, the catch block unlinks only the plaintext temp file; the
persisted ciphertext is NOT deleted, so the failed upload leaves an
orphaned ciphertext blob and no record, and the response is a 500. -/
theorem C8_failed_create_orphans_ciphertext
    (E : List Nat → List Nat → List Nat) (key iv : List Nat)
    (encName : String) (st : StorageB) (fs : FS) (uid : Nat)
    (tempPath orig fe : String) (now : Nat) (ip : String) (data : List Nat)
    (hdata : fsRead fs tempPath = some data)
    (hne : ENCRYPTED_DIR ++ "/" ++ encName ≠ tempPath) :
    upload2 E key iv encName true st fs uid tempPath orig fe now ip
      = (st, fsUnlinkSilent (fsWrite fs (ENCRYPTED_DIR ++ "/" ++ encName)
          (cbcEncrypt (E key) iv data)) tempPath, .serverError)
    ∧ fsRead (fsUnlinkSilent (fsWrite fs (ENCRYPTED_DIR ++ "/" ++ encName)
          (cbcEncrypt (E key) iv data)) tempPath) (ENCRYPTED_DIR ++ "/" ++ encName)
      = some (cbcEncrypt (E key) iv data)
    ∧ fsRead (fsUnlinkSilent (fsWrite fs (ENCRYPTED_DIR ++ "/" ++ encName)
          (cbcEncrypt (E key) iv data)) tempPath) tempPath = none := by
  refine ⟨?_, ?_, ?_⟩
  · unfold upload2 encryptFile
    rw [hdata]
    simp only []
    rw [if_pos trivial]
  · rw [fsRead_fsUnlinkSilent_ne _ _ _ hne, fsRead_fsWrite_self]
  · exact fsRead_fsUnlinkSilent_self _ _

/-- Witness for the amended C8 at a concrete failing upload. -/
theorem C8_failed_create_orphans_witness :
    upload2 (fun _ b => b) [7] (List.replicate 16 1) "e2" true storageC8
        ⟨[("uploads/t2", [4, 4])]⟩ 1 "uploads/t2" "b.txt" "txt" 0 "ip"
      = (storageC8, fsUnlinkSilent (fsWrite ⟨[("uploads/t2", [4, 4])]⟩
          ("uploads/encrypted" ++ "/" ++ "e2")
          (cbcEncrypt ((fun _ b => b) [7]) (List.replicate 16 1) [4, 4]))
          "uploads/t2", .serverError)
    ∧ fsRead (fsUnlinkSilent (fsWrite ⟨[("uploads/t2", [4, 4])]⟩
          ("uploads/encrypted" ++ "/" ++ "e2")
          (cbcEncrypt ((fun _ b => b) [7]) (List.replicate 16 1) [4, 4]))
          "uploads/t2") ("uploads/encrypted" ++ "/" ++ "e2")
      = some (cbcEncrypt ((fun _ b => b) [7]) (List.replicate 16 1) [4, 4])
    ∧ fsRead (fsUnlinkSilent (fsWrite ⟨[("uploads/t2", [4, 4])]⟩
          ("uploads/encrypted" ++ "/" ++ "e2")
          (cbcEncrypt ((fun _ b => b) [7]) (List.replicate 16 1) [4, 4]))
          "uploads/t2") "uploads/t2" = none :=
  C8_failed_create_orphans_ciphertext (fun _ b => b) [7] (List.replicate 16 1)
    "e2" storageC8 ⟨[("uploads/t2", [4, 4])]⟩ 1 "uploads/t2" "b.txt" "txt" 0 "ip"
    [4, 4] (by decide) (by decide)

/-- The cipher IV carried inside a WebSocket event payload, if any (the
variant A file record embeds its iv; variant A has no key field). -/
def payloadCipherIV : WsMessage → Option (List Nat)
  | .fileUploaded f => f.iv
  | .fileSharedWithYou _ f _ => f.iv
  | .fileDeleted _ => none

def serverC5 : ServerA :=
  ⟨⟨[userA1], [], [], 2, 1, 1⟩, [("17-1.pdf", [1, 2, 3])], [⟨7, "1", true⟩]⟩

/-- C5 counterexample: the FILE_UPLOADED event delivered to the uploader
(and the upload response itself) embed the full file record, whose iv
field is exactly the generated IV — an external payload does carry
cipher material, refuting the claim at this concrete input. -/
theorem C5_counterexample_payload_carries_iv :
    ((upload1 (fun _ => [9]) serverC5 1 "17-1.pdf" "report.pdf" "application/pdf"
        [4, 5] 10).2.2).map (fun d => payloadCipherIV d.2) = [some [4, 5]]
    ∧ (upload1 (fun _ => [9]) serverC5 1 "17-1.pdf" "report.pdf" "application/pdf"
        [4, 5] 10).2.1 = .ok ⟨"File uploaded successfully", fileC1⟩
    ∧ fileC1.iv = some [4, 5] := by
  decide

def FileB.rekey (f : FileB) (k v : List Nat) : FileB :=
  { f with fileKey := k, fileIV := v }

/-- The storage with one file record rebound to different key material,
everything else untouched: the yardstick for key non-interference. -/
def StorageB.rekeyFile (st : StorageB) (id : Nat) (k v : List Nat) : StorageB :=
  { st with files := st.files.map (fun f => if f.id == id then f.rekey k v else f) }

lemma find?_map_rekey (l : List FileB) (id j : Nat) (k v : List Nat) :
    (l.map (fun f => if f.id == id then f.rekey k v else f)).find?
        (fun f => f.id == j)
      = (l.find? (fun f => f.id == j)).map
          (fun f => if f.id == id then f.rekey k v else f) := by
  induction l with
  | nil => rfl
  | cons f rest ih =>
    simp only [List.map_cons]
    have hid : (if f.id == id then f.rekey k v else f).id = f.id := by
      by_cases hh : (f.id == id) = true <;> simp [FileB.rekey, hh]
    by_cases hfj : (f.id == j) = true
    · rw [List.find?_cons_of_pos _ (by rw [hid]; exact hfj),
          show List.find? (fun f => f.id == j) (f :: rest) = some f from
            List.find?_cons_of_pos _ hfj]
      rfl
    · rw [List.find?_cons_of_neg _ (by rw [hid]; exact hfj),
          show List.find? (fun f => f.id == j) (f :: rest)
              = List.find? (fun f => f.id == j) rest from
            List.find?_cons_of_neg _ hfj]
      exact ih

lemma getFile_rekey (st : StorageB) (id : Nat) (k v : List Nat) (j : Nat) :
    (st.rekeyFile id k v).getFile j
      = (st.getFile j).map (fun f => if f.id == id then f.rekey k v else f) := by
  unfold StorageB.rekeyFile StorageB.getFile
  exact find?_map_rekey st.files id j k v

lemma getFiles_rekey (st : StorageB) (id : Nat) (k v : List Nat) (uid : Nat) :
    (st.rekeyFile id k v).getFiles uid
      = (st.getFiles uid).map (fun f => if f.id == id then f.rekey k v else f) := by
  unfold StorageB.rekeyFile StorageB.getFiles
  simp only []
  rw [List.filter_map]
  congr 1
  apply List.filter_congr
  intro f _
  by_cases hh : f.id = id <;> simp [Function.comp, FileB.rekey, hh]

/-- Every message accumulated by the share loop is a FILE_SHARED_WITH_YOU
event carrying the file record and the session user. -/
lemma share1Step_foldl_msgs (clients : List ClientConn) (sessionUser : UserA)
    (fileId : Nat) (file : FileA) (permissionLevel : String) (note : Option String)
    (now : Nat) :
    ∀ (uids : List Nat) (acc : StorageA × List SharedFileA × List (Nat × WsMessage)),
    (∀ d ∈ acc.2.2, ∃ cid sf, d = (cid, WsMessage.fileSharedWithYou sf file sessionUser)) →
    ∀ d ∈ (uids.foldl
        (share1Step clients sessionUser fileId file permissionLevel note now) acc).2.2,
    ∃ cid sf, d = (cid, WsMessage.fileSharedWithYou sf file sessionUser) := by
  intro uids
  induction uids with
  | nil => intro acc hacc d hd; exact hacc d hd
  | cons u rest ih =>
    intro acc hacc d hd
    rw [List.foldl_cons] at hd
    refine ih _ ?_ d hd
    intro d2 hd2
    unfold share1Step at hd2
    cases hu : acc.1.getUser u with
    | none =>
      rw [hu] at hd2
      exact hacc d2 hd2
    | some user =>
      rw [hu] at hd2
      simp only [] at hd2
      have hd3 : d2 ∈ acc.2.2 ++ fanout clients (toString u)
          (.fileSharedWithYou
            (acc.1.shareFile fileId sessionUser.id u permissionLevel note now).2
            file sessionUser) := hd2
      rcases List.mem_append.mp hd3 with hL | hR
      · exact hacc d2 hL
      · unfold fanout at hR
        rw [List.mem_filterMap] at hR
        obtain ⟨c, _, heq⟩ := hR
        by_cases hcond : (c.userId == toString u && c.isOpen) = true
        · rw [if_pos hcond] at heq
          have hde := Option.some.inj heq
          exact ⟨c.connId, _, hde.symm⟩
        · rw [if_neg hcond] at heq
          cases heq

/-- C5 amended: no route of the key-holding variant ever places cipherKey
or cipherIV in a response — its upload, list and detail responses are
invariant under rebinding the key material of any record — while the
variant A payloads, which store no key at all, embed the full file
record, iv included (the leak the counterexample pins down): the
FILE_UPLOADED event and the upload response carry the created record,
the metadata route returns exactly the stored record, and every
FILE_SHARED_WITH_YOU delivery carries the full file record together
with the grantor identity. -/
theorem C5_no_key_material_in_responses :
    (∀ (f : FileB) (k v : List Nat),
        (f.rekey k v).toUploadResponse = f.toUploadResponse
        ∧ (f.rekey k v).toListItem = f.toListItem)
    ∧ (∀ (st : StorageB) (uid fid : Nat) (k v : List Nat),
        listFiles2 (st.rekeyFile fid k v) uid = listFiles2 st uid)
    ∧ (∀ (st : StorageB) (uid fid now : Nat) (ip : String) (k v : List Nat),
        (getFileDetails2 (st.rekeyFile fid k v) uid fid now ip).2
          = (getFileDetails2 st uid fid now ip).2)
    ∧ (∀ (E : List Nat → List Nat → List Nat) (k1 v1 k2 v2 : List Nat)
          (encName : String) (cf : Bool) (st : StorageB) (fs : FS) (uid : Nat)
          (tempPath orig fe : String) (now : Nat) (ip : String),
        (upload2 E k1 v1 encName cf st fs uid tempPath orig fe now ip).2.2
          = (upload2 E k2 v2 encName cf st fs uid tempPath orig fe now ip).2.2)
    ∧ (∀ (sha256 : List Nat → List Nat) (s : ServerA) (uid : Nat)
          (fn orig mime : String) (ivB : List Nat) (now : Nat) (d : Nat × WsMessage),
        d ∈ (upload1 sha256 s uid fn orig mime ivB now).2.2 →
        ∃ cid file, d = (cid, .fileUploaded file)
          ∧ (upload1 sha256 s uid fn orig mime ivB now).2.1
              = .ok ⟨"File uploaded successfully", file⟩)
    ∧ (∀ (s : ServerA) (uid fid : Nat) (f : FileA),
        getFileRoute1 s uid fid = .ok f → s.store.getFile fid = some f)
    ∧ (∀ (s : ServerA) (sessionUser : UserA) (fileId : Nat) (uids : List Nat)
          (level : String) (note : Option String) (now : Nat) (file : FileA)
          (d : Nat × WsMessage),
        s.store.getFile fileId = some file →
        d ∈ (share1 s sessionUser fileId uids level note now).2.2 →
        ∃ cid sf, d = (cid, .fileSharedWithYou sf file sessionUser)) := by
  refine ⟨?_, ?_, ?_, ?_, ?_, ?_, ?_⟩
  · intro f k v
    exact ⟨rfl, rfl⟩
  · intro st uid fid k v
    unfold listFiles2
    rw [getFiles_rekey, List.map_map]
    congr 1
    apply List.map_congr_left
    intro f _
    by_cases hh : f.id = fid <;>
      simp [Function.comp, FileB.rekey, FileB.toListItem, hh]
  · intro st uid fid now ip k v
    unfold getFileDetails2
    rw [getFile_rekey]
    cases hf : st.getFile fid with
    | none => rfl
    | some f =>
      simp only [Option.map_some']
      by_cases hid : (f.id == fid) = true
      · rw [if_pos hid]
        simp only [FileB.rekey]
        by_cases huid : (f.userId != uid) = true
        · rw [if_pos huid, if_pos huid]
        · rw [if_neg huid, if_neg huid]
          simp [StorageB.rekeyFile, StorageB.createAccessLog,
                StorageB.updateLastAccessed, StorageB.getFileAccessLogs]
      · rw [if_neg hid]
        by_cases huid : (f.userId != uid) = true
        · rw [if_pos huid, if_pos huid]
        · rw [if_neg huid, if_neg huid]
          simp [StorageB.rekeyFile, StorageB.createAccessLog,
                StorageB.updateLastAccessed, StorageB.getFileAccessLogs]
  · intro E k1 v1 k2 v2 encName cf st fs uid tempPath orig fe now ip
    unfold upload2 encryptFile
    cases hread : fsRead fs tempPath with
    | none => rfl
    | some data =>
      simp only []
      cases cf with
      | true => rfl
      | false => rfl
  · intro sha256 s uid fn orig mime ivB now d hd
    unfold upload1 at hd ⊢
    cases hread : diskRead s.uploadDisk fn with
    | none => rw [hread] at hd; simp at hd
    | some fileBuffer =>
      rw [hread] at hd
      simp only [] at hd ⊢
      have hd2 : d ∈ fanout s.clients (toString uid)
          (.fileUploaded ((s.store.createFile
            ⟨uid, fn, orig, mime, fileBuffer.length, sha256 fileBuffer, true,
             some "AES-256", some ivB⟩ now).2)) := hd
      unfold fanout at hd2
      rw [List.mem_filterMap] at hd2
      obtain ⟨c, _, heq⟩ := hd2
      by_cases hcond : (c.userId == toString uid && c.isOpen) = true
      · rw [if_pos hcond] at heq
        have hde := Option.some.inj heq
        refine ⟨c.connId, _, hde.symm, rfl⟩
      · rw [if_neg hcond] at heq
        cases heq
  · intro s uid fid f h
    unfold getFileRoute1 at h
    cases hget : s.store.getFile fid with
    | none =>
      rw [hget] at h
      cases h
    | some file =>
      rw [hget] at h
      simp only [] at h
      by_cases h1 : (file.userId != uid) = true
      · rw [if_pos h1] at h
        by_cases h2 : ((s.store.getFilesSharedWithUser uid).any
            (fun sf => sf.file.id == fid)) = true
        · rw [if_pos h2] at h
          cases h
          rfl
        · rw [if_neg h2] at h
          cases h
      · rw [if_neg h1] at h
        cases h
        rfl
  · intro s sessionUser fileId uids level note now file d hfile hd
    unfold share1 at hd
    rw [hfile] at hd
    simp only [] at hd
    by_cases howner : (file.userId != sessionUser.id) = true
    · rw [if_pos howner] at hd
      simp at hd
    · rw [if_neg howner] at hd
      simp only [] at hd
      exact share1Step_foldl_msgs s.clients sessionUser fileId file level note now
        uids (s.store, [], []) (by intro d2 hd2; simp at hd2) d hd

def storageC5 : StorageB := ⟨[fileC2], [⟨1, 1, 1, "upload", "ip", 0⟩], 2, 2⟩

/-- User 1 owns the file and user 2 has one live connection. -/
def serverShareC5 : ServerA :=
  ⟨⟨[userA1, userA2], [fileA1], [], 3, 2, 1⟩, [("17-1.pdf", [1, 2, 3])],
   [⟨7, "2", true⟩]⟩

/-- The grant created by sharing the file with user 2 on serverShareC5. -/
def grantShareC5 : SharedFileA := ⟨1, 1, 1, 2, "view", none, 20, false⟩

/-- Witness for the amended C5 on a concrete variant B state and concrete
variant A upload, metadata and share calls. -/
theorem C5_no_key_material_witness :
    (fileC2.rekey [9] [8]).toUploadResponse = fileC2.toUploadResponse
    ∧ listFiles2 (storageC5.rekeyFile 1 [9] [8]) 1 = listFiles2 storageC5 1
    ∧ (getFileDetails2 (storageC5.rekeyFile 1 [9] [8]) 1 1 7 "ip").2
        = (getFileDetails2 storageC5 1 1 7 "ip").2
    ∧ (upload2 (fun _ b => b) [1] (List.replicate 16 0) "e9" false storageC5 fsC8 1
        "uploads/t1" "c.txt" "txt" 3 "ip").2.2
      = (upload2 (fun _ b => b) [2] (List.replicate 16 3) "e9" false storageC5 fsC8 1
        "uploads/t1" "c.txt" "txt" 3 "ip").2.2
    ∧ (∃ cid file, ((7, WsMessage.fileUploaded fileC1) : Nat × WsMessage)
        = (cid, .fileUploaded file)
      ∧ (upload1 (fun _ => [9]) serverC5 1 "17-1.pdf" "report.pdf"
          "application/pdf" [4, 5] 10).2.1
          = .ok ⟨"File uploaded successfully", file⟩)
    ∧ serverLedger.store.getFile 1 = some fileA1
    ∧ ∃ cid sf, ((7, WsMessage.fileSharedWithYou grantShareC5 fileA1 userA1)
          : Nat × WsMessage)
        = (cid, .fileSharedWithYou sf fileA1 userA1) := by
  have h := C5_no_key_material_in_responses
  refine ⟨(h.1 fileC2 [9] [8]).1,
          h.2.1 storageC5 1 1 [9] [8],
          h.2.2.1 storageC5 1 1 7 "ip" [9] [8],
          h.2.2.2.1 (fun _ b => b) [1] (List.replicate 16 0) [2]
            (List.replicate 16 3) "e9" false storageC5 fsC8 1 "uploads/t1"
            "c.txt" "txt" 3 "ip",
          h.2.2.2.2.1 (fun _ => [9]) serverC5 1 "17-1.pdf" "report.pdf"
            "application/pdf" [4, 5] 10 (7, .fileUploaded fileC1) (by decide),
          h.2.2.2.2.2.1 serverLedger 2 1 fileA1 (by decide),
          h.2.2.2.2.2.2 serverShareC5 userA1 1 [2] "view" none 20 fileA1
            (7, .fileSharedWithYou grantShareC5 fileA1 userA1) (by decide)
            (by decide)⟩

end SecureFileVault
